import Mathlib

/-!
Shallow embedding of the user-creation/retrieval core of the
`rust-users-api` service (files `src/models/user.rs`,
`src/errors/app_error.rs`, `src/errors/api_error.rs`,
`src/services/user_service.rs`, `src/repository/user_repository.rs`).

Modelling decisions:
* `chrono::NaiveDate` is a totally ordered calendar date; only its order
  is used (the `birth_date > today` check), so dates are embedded as `Int`.
* `i32` ids are embedded as `Int`.  The MySQL table's `INT AUTO_INCREMENT`
  column generates consecutive identifiers starting at 1 and the engine
  rejects overflow of the column type, so `last_insert_id() as i32` is the
  identity on every identifier the store can actually generate; the store
  model hands the generated identifier back exactly.
* The MySQL store behind `UserRepository` is modelled as an explicit state:
  the list of rows of the `users` table plus the table's `AUTO_INCREMENT`
  counter.  `fetch_optional` of a `SELECT ... WHERE c = ?` returns the
  first matching row or none, embedded as `List.find?`.
* Technical (driver) failures are environment nondeterminism, not program
  logic; the model store does not raise them, so repository operations are
  total.  The `InternalError` wrapping they would receive is still part of
  the embedded error taxonomy (`AppError`).
* The Rust standard-library string primitives the service uses
  (`str::trim`, `str::is_empty`, `str::contains(char)`) are embedded as
  explicit functions over the string's character list (`strTrim`,
  `strIsEmpty`, `strContains`), so that concrete instances evaluate inside
  the kernel.
-/

/-- `models/user.rs`: a persisted user row (`User`). -/
structure User where
  id : Int
  name : String
  email : String
  birth_date : Int
deriving DecidableEq, Repr

/-- `models/user.rs`: input data for creating a user (`NewUser`). -/
structure NewUser where
  name : String
  email : String
  birth_date : Int
deriving DecidableEq, Repr

/-- `errors/app_error.rs`: the internal error taxonomy (`AppError`). -/
inductive AppError where
  | ValidationError (errors : List String)
  | BusinessError (msg : String)
  | NotFoundError (msg : String)
  | InternalError (msg : String)
deriving DecidableEq, Repr

/-- `errors/api_error.rs`: the transport-facing error body (`ApiError`). -/
structure ApiError where
  status : Nat
  message : String
  cause : List String
deriving DecidableEq, Repr

namespace ApiError

/-- `ApiError::validation`: the HTTP-400 validation error body.  In the
Rust source the helper's parameter is declared as a single `&str`, but its
only caller — `impl From<AppError> for ApiError` — applies it to the whole
`Vec<String>` of collected messages, and the documented JSON example shows
`cause` as the list of messages; the list-typed reading is the one under
which that caller type-checks, so the embedding takes the list. -/
def validation (errors : List String) : ApiError :=
  { status := 400, message := "Erro de validação", cause := errors }

/-- `ApiError::not_found`: the HTTP-404 body. -/
def not_found (msg : String) : ApiError :=
  { status := 404, message := "Recurso nao encontrado", cause := [msg] }

/-- `ApiError::business`: the HTTP-409 body. -/
def business (msg : String) : ApiError :=
  { status := 409, message := "Regra de negocio", cause := [msg] }

/-- `ApiError::internal`: the HTTP-500 body. -/
def internal (msg : String) (detail : String) : ApiError :=
  { status := 500, message := msg, cause := [detail] }

/-- `errors/app_error.rs`, `impl From<AppError> for ApiError`. -/
def ofAppError : AppError → ApiError
  | .ValidationError errors => validation errors
  | .BusinessError msg => business msg
  | .NotFoundError msg => not_found msg
  | .InternalError msg => internal "Erro interno" msg

end ApiError

/-- The state of the MySQL `users` table: its rows, in insertion order,
and the `AUTO_INCREMENT` counter that will be assigned to the next row. -/
structure Store where
  users : List User
  nextId : Int
deriving DecidableEq, Repr

/-- The empty table; MySQL `AUTO_INCREMENT` starts at 1. -/
def Store.empty : Store := { users := [], nextId := 1 }

namespace UserRepository

/-- `repository/user_repository.rs`, `UserRepository::create_user`:
`INSERT INTO users (name, email, birth_date) VALUES (?, ?, ?)`, then the
returned `User` is built from the input fields and the identifier the
storage engine generated for the inserted row. -/
def create_user (s : Store) (user : NewUser) : User × Store :=
  let id := s.nextId
  -- the Rust local is called `rec`; that is a keyword in Lean
  let record : User :=
    { id := id, name := user.name, email := user.email,
      birth_date := user.birth_date }
  (record, { users := s.users ++ [record], nextId := s.nextId + 1 })

/-- `repository/user_repository.rs`, `UserRepository::get_user`:
`SELECT ... FROM users WHERE id = ?` with `fetch_optional`. -/
def get_user (s : Store) (id : Int) : Option User :=
  s.users.find? (fun row => row.id == id)

/-- `repository/user_repository.rs`, `UserRepository::get_by_email`:
`SELECT ... FROM users WHERE email = ?` with `fetch_optional`. -/
def get_by_email (s : Store) (email : String) : Option User :=
  s.users.find? (fun row => row.email == email)

end UserRepository

/-- Rust `str::trim`: removes whitespace from both ends of the string.
Embedded over the string's character list (`List.rdropWhile l p =
(l.reverse.dropWhile p).reverse`).  Rust trims the Unicode `White_Space`
set; `Char.isWhitespace` covers its ASCII part, which is all the inputs of
interest use. -/
def strTrim (s : String) : String :=
  ⟨List.rdropWhile Char.isWhitespace (s.data.dropWhile Char.isWhitespace)⟩

/-- Rust `str::is_empty`: the string has no characters. -/
def strIsEmpty (s : String) : Bool :=
  s.data.isEmpty

/-- Rust `str::contains(char)`: some character of the string equals `c`. -/
def strContains (s : String) (c : Char) : Bool :=
  s.data.contains c

namespace UserService

/-- The three validation messages pushed by `UserService::create_user`,
in source order: name, email, birth date. -/
def nameMsg : String := "Nome não pode estar vazio"

def emailMsg : String := "Email inválido: deve conter '@'"

def birthMsg : String := "Data de nascimento não pode estar no futuro"

/-- `services/user_service.rs`, `UserService::create_user`, lines 54-75:
the `errors` vector after the three `if` blocks have run.  `today` is
`chrono::Utc::now().date_naive()`, passed explicitly. -/
def collectErrors (today : Int) (user : NewUser) : List String :=
  (if strIsEmpty (strTrim user.name) then [nameMsg] else []) ++
  (if !(strContains user.email '@') then [emailMsg] else []) ++
  (if user.birth_date > today then [birthMsg] else [])

/-- `services/user_service.rs`, `UserService::create_user`: collects the
validation errors, rejects on any; otherwise rejects a duplicate email
found through `get_by_email`; otherwise delegates to the repository.
Returns the result together with the store state after the call. -/
def create_user (today : Int) (s : Store) (user : NewUser) :
    Except AppError User × Store :=
  let errors := collectErrors today user
  if !errors.isEmpty then
    (.error (.ValidationError errors), s)
  else if (UserRepository.get_by_email s user.email).isSome then
    (.error (.BusinessError "Email já está sendo utilizado"), s)
  else
    let (record, s') := UserRepository.create_user s user
    (.ok record, s')

/-- `services/user_service.rs`, `UserService::get_user`: rejects
non-positive ids, then delegates to the repository and turns absence into
`NotFoundError`.  Reads the store without modifying it. -/
def get_user (s : Store) (id : Int) : Except AppError User :=
  if id ≤ 0 then
    .error (.ValidationError
      ["O ID do usuário deve ser um número positivo maior que zero"])
  else
    match UserRepository.get_user s id with
    | none => .error (.NotFoundError "Usuário não encontrado")
    | some user => .ok user

end UserService

/-- One client-visible operation of the service, used to describe the
states the store can reach under sequential execution. -/
inductive Op where
  | create (today : Int) (user : NewUser)
  | get (id : Int)
deriving Repr

/-- The store state after running one operation. `get_user` only reads. -/
def Store.step (s : Store) : Op → Store
  | .create today user => (UserService.create_user today s user).2
  | .get _ => s

/-- The store state after running a sequence of operations from a start
state. -/
def Store.run (s : Store) (ops : List Op) : Store :=
  ops.foldl Store.step s

/-- A store state reachable from the empty store by a sequence of
`create_user` / `get_user` calls executed sequentially. -/
def Store.Reachable (s : Store) : Prop :=
  ∃ ops : List Op, Store.run Store.empty ops = s

/-! ### Branch lemmas for `UserService.create_user` -/

/-- The collected validation errors are empty exactly when all three input
constraints hold. -/
theorem UserService.collectErrors_eq_nil_iff (today : Int) (user : NewUser) :
    UserService.collectErrors today user = [] ↔
      strIsEmpty (strTrim user.name) = false ∧
      strContains user.email '@' = true ∧
      ¬ user.birth_date > today := by
  cases h1 : strIsEmpty (strTrim user.name) <;>
    cases h2 : strContains user.email '@' <;>
      by_cases h3 : user.birth_date > today <;>
        simp [UserService.collectErrors, h1, h2, h3]

/-- With at least one validation error collected, `create_user` returns
them all and leaves the store untouched. -/
theorem UserService.create_user_validation_branch (today : Int) (s : Store)
    (user : NewUser) (h : UserService.collectErrors today user ≠ []) :
    UserService.create_user today s user =
      (.error (.ValidationError (UserService.collectErrors today user)), s) := by
  unfold UserService.create_user
  simp [h]

/-- With no validation error but a stored record carrying the same email,
`create_user` returns the duplicate-email business error and leaves the
store untouched. -/
theorem UserService.create_user_business_branch (today : Int) (s : Store)
    (user : NewUser) (hnil : UserService.collectErrors today user = [])
    (hd : (UserRepository.get_by_email s user.email).isSome) :
    UserService.create_user today s user =
      (.error (.BusinessError "Email já está sendo utilizado"), s) := by
  unfold UserService.create_user
  simp [hnil, hd]

/-- With no validation error and no stored record carrying the email,
`create_user` inserts the row and returns it with the generated id. -/
theorem UserService.create_user_insert_branch (today : Int) (s : Store)
    (user : NewUser) (hnil : UserService.collectErrors today user = [])
    (hd : UserRepository.get_by_email s user.email = none) :
    UserService.create_user today s user =
      (.ok ⟨s.nextId, user.name, user.email, user.birth_date⟩,
       ⟨s.users ++ [⟨s.nextId, user.name, user.email, user.birth_date⟩],
        s.nextId + 1⟩) := by
  unfold UserService.create_user
  simp [hnil, hd, UserRepository.create_user]

/-- Inversion: a successful `create_user` call means both checks passed,
the returned record is the input plus the generated id, and the row was
appended to the store. -/
theorem UserService.create_user_ok_inversion (today : Int) (s : Store)
    (user : NewUser) (u : User)
    (h : (UserService.create_user today s user).1 = .ok u) :
    UserService.collectErrors today user = [] ∧
    UserRepository.get_by_email s user.email = none ∧
    u = ⟨s.nextId, user.name, user.email, user.birth_date⟩ ∧
    (UserService.create_user today s user).2 =
      ⟨s.users ++ [u], s.nextId + 1⟩ := by
  by_cases hnil : UserService.collectErrors today user = []
  · cases hd : UserRepository.get_by_email s user.email with
    | none =>
      rw [UserService.create_user_insert_branch today s user hnil hd] at h ⊢
      simp at h
      simp [hnil, hd, h]
    | some r =>
      rw [UserService.create_user_business_branch today s user hnil
        (by simp [hd])] at h
      simp at h
  · rw [UserService.create_user_validation_branch today s user hnil] at h
    simp at h

/-! ### The reachable-store invariant -/

/-- Invariant of the store under sequential service execution: stored
emails are pairwise distinct, every stored id is a positive identifier
already handed out (strictly below the counter), and the counter is at
least 1. -/
def Store.Inv (s : Store) : Prop :=
  List.Pairwise (fun a b : User => a.email ≠ b.email) s.users ∧
  (∀ u ∈ s.users, 1 ≤ u.id ∧ u.id < s.nextId) ∧
  1 ≤ s.nextId

theorem Store.empty_inv : Store.empty.Inv := by
  refine ⟨List.Pairwise.nil, ?_, le_refl 1⟩
  intro u hu
  simp [Store.empty] at hu

theorem Store.Inv.step (s : Store) (op : Op) (h : s.Inv) :
    (s.step op).Inv := by
  cases op with
  | get id => exact h
  | create today user =>
    show (UserService.create_user today s user).2.Inv
    by_cases hnil : UserService.collectErrors today user = []
    · cases hd : UserRepository.get_by_email s user.email with
      | some r =>
        rw [UserService.create_user_business_branch today s user hnil
          (by simp [hd])]
        exact h
      | none =>
        rw [UserService.create_user_insert_branch today s user hnil hd]
        obtain ⟨huniq, hids, hpos⟩ := h
        have hfresh : ∀ r ∈ s.users, r.email ≠ user.email := by
          intro r hr
          have := List.find?_eq_none.mp hd r hr
          simpa using this
        refine ⟨?_, ?_, ?_⟩
        · rw [List.pairwise_append]
          refine ⟨huniq, List.pairwise_singleton _ _, ?_⟩
          intro a ha b hb
          simp only [List.mem_singleton] at hb
          subst hb
          exact hfresh a ha
        · intro u hu
          show 1 ≤ u.id ∧ u.id < s.nextId + 1
          rcases List.mem_append.mp hu with hu | hu
          · have := hids u hu
            omega
          · simp only [List.mem_singleton] at hu
            subst hu
            show (1:Int) ≤ s.nextId ∧ s.nextId < s.nextId + 1
            omega
        · show (1:Int) ≤ s.nextId + 1
          omega
    · rw [UserService.create_user_validation_branch today s user hnil]
      exact h

theorem Store.Inv.run (ops : List Op) (s : Store) (h : s.Inv) :
    (s.run ops).Inv := by
  induction ops generalizing s with
  | nil => exact h
  | cons op ops ih => exact ih (s.step op) (h.step s op)

/-- Every store reachable from the empty store by sequential service
calls satisfies the invariant. -/
theorem Store.Reachable.inv {s : Store} (h : s.Reachable) : s.Inv := by
  obtain ⟨ops, rfl⟩ := h
  exact Store.Inv.run ops Store.empty Store.empty_inv

/-! ### Claims -/

/-- C1: a `NewUser` request violating one or more of the three input
constraints (trimmed name empty, email lacking a `"@"` character, birth
date strictly after today) makes `create_user` fail with a single
`ValidationError` whose message list holds exactly one message per
violated rule and none per satisfied rule, in the fixed order
name, email, birth date. -/
theorem create_user_collects_every_violation (today : Int) (s : Store)
    (user : NewUser)
    (h : strIsEmpty (strTrim user.name) = true ∨
         strContains user.email '@' = false ∨
         user.birth_date > today) :
    (UserService.create_user today s user).1 =
      Except.error (AppError.ValidationError (
        (if strIsEmpty (strTrim user.name) then [UserService.nameMsg]
          else []) ++
        (if strContains user.email '@' = false then [UserService.emailMsg]
          else []) ++
        (if user.birth_date > today then [UserService.birthMsg]
          else []))) := by
  have hne : UserService.collectErrors today user ≠ [] := by
    rcases h with h | h | h <;> simp [UserService.collectErrors, h]
  rw [UserService.create_user_validation_branch today s user hne]
  simp [UserService.collectErrors, Bool.not_eq_true']

theorem create_user_collects_every_violation_witness :
    (UserService.create_user 0 Store.empty ⟨"  ", "bad", 1⟩).1 =
      Except.error (AppError.ValidationError
        [UserService.nameMsg, UserService.emailMsg,
         UserService.birthMsg]) := by
  rw [create_user_collects_every_violation 0 Store.empty ⟨"  ", "bad", 1⟩
    (Or.inl (by decide))]
  rfl

/-- C2: a `NewUser` request that passes all three input constraints but
whose email equals the email of some record already in the store makes
`create_user` fail with the duplicate-email `BusinessError`, no matter
what the other fields of the stored record are. -/
theorem create_user_rejects_duplicate_email (today : Int) (s : Store)
    (user : NewUser) (r : User)
    (h1 : strIsEmpty (strTrim user.name) = false)
    (h2 : strContains user.email '@' = true)
    (h3 : ¬ user.birth_date > today)
    (hr : r ∈ s.users) (he : r.email = user.email) :
    (UserService.create_user today s user).1 =
      Except.error (AppError.BusinessError "Email já está sendo utilizado") := by
  have hnil : UserService.collectErrors today user = [] :=
    (UserService.collectErrors_eq_nil_iff today user).mpr ⟨h1, h2, h3⟩
  have hd : (UserRepository.get_by_email s user.email).isSome := by
    unfold UserRepository.get_by_email
    rw [List.find?_isSome]
    exact ⟨r, hr, by simp [he]⟩
  rw [UserService.create_user_business_branch today s user hnil hd]

theorem create_user_rejects_duplicate_email_witness :
    (UserService.create_user 0
        ⟨[⟨1, "Bob", "ana@x.com", -3⟩], 2⟩
        ⟨"Ana", "ana@x.com", 0⟩).1 =
      Except.error (AppError.BusinessError "Email já está sendo utilizado") :=
  create_user_rejects_duplicate_email 0
    ⟨[⟨1, "Bob", "ana@x.com", -3⟩], 2⟩ ⟨"Ana", "ana@x.com", 0⟩
    ⟨1, "Bob", "ana@x.com", -3⟩
    (by decide) (by decide) (by decide) (by decide) rfl

/-- C3: the translation from the internal taxonomy to transport errors is
total and fixed: `ValidationError` ↦ 400, `BusinessError` ↦ 409,
`NotFoundError` ↦ 404, `InternalError` ↦ 500, each with a structured body
carrying that status, a short category message, and the ordered cause
list (for a `ValidationError`, every collected message). -/
theorem app_error_to_api_error_total_and_fixed (e : AppError) :
    ApiError.ofAppError e =
      match e with
      | .ValidationError msgs =>
          ⟨400, "Erro de validação", msgs⟩
      | .BusinessError msg =>
          ⟨409, "Regra de negocio", [msg]⟩
      | .NotFoundError msg =>
          ⟨404, "Recurso nao encontrado", [msg]⟩
      | .InternalError msg =>
          ⟨500, "Erro interno", [msg]⟩ := by
  cases e <;>
    simp [ApiError.ofAppError, ApiError.validation, ApiError.business,
      ApiError.not_found, ApiError.internal]

/-- C4: the id of the record returned by a successful `create_user` call
from any reachable store state is a positive integer — the identifier the
storage engine generated for the inserted row. -/
theorem create_user_returns_positive_id (today : Int) (s : Store)
    (user : NewUser) (u : User) (hs : s.Reachable)
    (h : (UserService.create_user today s user).1 = Except.ok u) :
    0 < u.id := by
  obtain ⟨-, -, hu, -⟩ :=
    UserService.create_user_ok_inversion today s user u h
  obtain ⟨-, -, hpos⟩ := hs.inv
  subst hu
  show (0:Int) < s.nextId
  omega

theorem create_user_returns_positive_id_witness :
    (UserService.create_user 0 Store.empty ⟨"Ana", "ana@x.com", 0⟩).1 =
      Except.ok (⟨1, "Ana", "ana@x.com", 0⟩ : User) ∧
    (0:Int) < (⟨1, "Ana", "ana@x.com", 0⟩ : User).id :=
  have h : (UserService.create_user 0 Store.empty
      ⟨"Ana", "ana@x.com", 0⟩).1 =
      Except.ok (⟨1, "Ana", "ana@x.com", 0⟩ : User) := by rfl
  ⟨h, create_user_returns_positive_id 0 Store.empty
    ⟨"Ana", "ana@x.com", 0⟩ ⟨1, "Ana", "ana@x.com", 0⟩ ⟨[], rfl⟩ h⟩

/-- C5: in every store state reachable from the empty store by sequential
`create_user` / `get_user` calls, the persisted emails are pairwise
distinct. -/
theorem reachable_store_emails_unique (s : Store) (hs : s.Reachable) :
    List.Pairwise (fun a b : User => a.email ≠ b.email) s.users :=
  hs.inv.1

theorem reachable_store_emails_unique_witness :
    Store.Reachable
      ⟨[⟨1, "Ana", "ana@x.com", 0⟩, ⟨2, "Bob", "bob@x.com", 0⟩], 3⟩ ∧
    List.Pairwise (fun a b : User => a.email ≠ b.email)
      [⟨1, "Ana", "ana@x.com", 0⟩, ⟨2, "Bob", "bob@x.com", 0⟩] :=
  have hreach : Store.Reachable
      ⟨[⟨1, "Ana", "ana@x.com", 0⟩, ⟨2, "Bob", "bob@x.com", 0⟩], 3⟩ :=
    ⟨[Op.create 0 ⟨"Ana", "ana@x.com", 0⟩,
      Op.create 0 ⟨"Bob", "bob@x.com", 0⟩], by decide⟩
  ⟨hreach, reachable_store_emails_unique _ hreach⟩

/-- C6: `get_user` with a non-positive id (zero or negative) fails with a
`ValidationError` carrying a single message — not a `NotFoundError` —
whatever the store contents are. -/
theorem get_user_rejects_nonpositive_id (s : Store) (id : Int)
    (h : id ≤ 0) :
    UserService.get_user s id =
      Except.error (AppError.ValidationError
        ["O ID do usuário deve ser um número positivo maior que zero"]) := by
  unfold UserService.get_user
  simp [h]

theorem get_user_rejects_nonpositive_id_witness :
    (0:Int) ≤ 0 ∧
    UserService.get_user ⟨[⟨0, "Zed", "zed@x.com", 0⟩], 2⟩ 0 =
      Except.error (AppError.ValidationError
        ["O ID do usuário deve ser um número positivo maior que zero"]) :=
  ⟨le_refl 0, get_user_rejects_nonpositive_id
    ⟨[⟨0, "Zed", "zed@x.com", 0⟩], 2⟩ 0 (le_refl 0)⟩

/-- C7: for a valid, non-duplicate request, `create_user` returns the
gateway's record unchanged, and that record's name, email and birth date
are exactly the input's values while its id is the storage-generated
identifier. -/
theorem create_user_echoes_input (today : Int) (s : Store) (user : NewUser)
    (h1 : strIsEmpty (strTrim user.name) = false)
    (h2 : strContains user.email '@' = true)
    (h3 : ¬ user.birth_date > today)
    (hd : UserRepository.get_by_email s user.email = none) :
    (UserService.create_user today s user).1 =
      Except.ok (UserRepository.create_user s user).1 ∧
    (UserRepository.create_user s user).1.id = s.nextId ∧
    (UserRepository.create_user s user).1.name = user.name ∧
    (UserRepository.create_user s user).1.email = user.email ∧
    (UserRepository.create_user s user).1.birth_date = user.birth_date := by
  have hnil : UserService.collectErrors today user = [] :=
    (UserService.collectErrors_eq_nil_iff today user).mpr ⟨h1, h2, h3⟩
  rw [UserService.create_user_insert_branch today s user hnil hd]
  exact ⟨rfl, rfl, rfl, rfl, rfl⟩

theorem create_user_echoes_input_witness :
    (UserService.create_user 0 Store.empty ⟨"Ana", "ana@x.com", 0⟩).1 =
      Except.ok
        (UserRepository.create_user Store.empty ⟨"Ana", "ana@x.com", 0⟩).1 ∧
    (UserRepository.create_user Store.empty
        ⟨"Ana", "ana@x.com", 0⟩).1.id = Store.empty.nextId ∧
    (UserRepository.create_user Store.empty
        ⟨"Ana", "ana@x.com", 0⟩).1.name = "Ana" ∧
    (UserRepository.create_user Store.empty
        ⟨"Ana", "ana@x.com", 0⟩).1.email = "ana@x.com" ∧
    (UserRepository.create_user Store.empty
        ⟨"Ana", "ana@x.com", 0⟩).1.birth_date = 0 :=
  create_user_echoes_input 0 Store.empty ⟨"Ana", "ana@x.com", 0⟩
    (by decide) (by decide) (by decide) rfl

/-- C8: creating a valid, non-duplicate user from a reachable store state
and immediately fetching by the returned id succeeds and yields a record
whose name, email and birth date are exactly those submitted. -/
theorem create_then_get_roundtrip (today : Int) (s s' : Store)
    (user : NewUser) (u : User) (hs : s.Reachable)
    (h : UserService.create_user today s user = (Except.ok u, s')) :
    UserService.get_user s' u.id = Except.ok u ∧
    u.name = user.name ∧ u.email = user.email ∧
    u.birth_date = user.birth_date := by
  have hfst : (UserService.create_user today s user).1 = Except.ok u := by
    rw [h]
  obtain ⟨hnil, hd, hu, hsnd⟩ :=
    UserService.create_user_ok_inversion today s user u hfst
  have hs' : s' = ⟨s.users ++ [u], s.nextId + 1⟩ := by
    rw [← hsnd, h]
  obtain ⟨-, hids, hpos⟩ := hs.inv
  subst hu
  subst hs'
  refine ⟨?_, rfl, rfl, rfl⟩
  unfold UserService.get_user
  have hidpos :
      ¬ (⟨s.nextId, user.name, user.email, user.birth_date⟩ : User).id ≤ 0 := by
    show ¬ s.nextId ≤ 0
    omega
  rw [if_neg hidpos]
  have hnone : s.users.find?
      (fun row => row.id ==
        (⟨s.nextId, user.name, user.email, user.birth_date⟩ : User).id) =
      none := by
    rw [List.find?_eq_none]
    intro r hr
    have h2 := (hids r hr).2
    show ¬ (r.id == s.nextId) = true
    simp only [beq_iff_eq]
    omega
  have hfind : UserRepository.get_user
      ⟨s.users ++ [⟨s.nextId, user.name, user.email, user.birth_date⟩],
        s.nextId + 1⟩
      (⟨s.nextId, user.name, user.email, user.birth_date⟩ : User).id =
      some ⟨s.nextId, user.name, user.email, user.birth_date⟩ := by
    unfold UserRepository.get_user
    show (s.users ++
        [(⟨s.nextId, user.name, user.email, user.birth_date⟩ : User)]).find?
        (fun row => row.id ==
          (⟨s.nextId, user.name, user.email, user.birth_date⟩ : User).id) =
      some ⟨s.nextId, user.name, user.email, user.birth_date⟩
    rw [List.find?_append, hnone]
    simp
  rw [hfind]

theorem create_then_get_roundtrip_witness :
    UserService.get_user ⟨[⟨1, "Ana", "ana@x.com", 0⟩], 2⟩ 1 =
      Except.ok (⟨1, "Ana", "ana@x.com", 0⟩ : User) ∧
    (⟨1, "Ana", "ana@x.com", 0⟩ : User).name = "Ana" ∧
    (⟨1, "Ana", "ana@x.com", 0⟩ : User).email = "ana@x.com" ∧
    (⟨1, "Ana", "ana@x.com", 0⟩ : User).birth_date = 0 :=
  create_then_get_roundtrip 0 Store.empty
    ⟨[⟨1, "Ana", "ana@x.com", 0⟩], 2⟩ ⟨"Ana", "ana@x.com", 0⟩
    ⟨1, "Ana", "ana@x.com", 0⟩ ⟨[], rfl⟩ (by rfl)

/-- C9: whenever `create_user` returns an error (a `ValidationError` or
the duplicate-email `BusinessError`), no insert happens: the store after
the call is exactly the store before it. -/
theorem create_user_error_leaves_store_unchanged (today : Int) (s : Store)
    (user : NewUser) (e : AppError)
    (h : (UserService.create_user today s user).1 = Except.error e) :
    (UserService.create_user today s user).2 = s := by
  by_cases hnil : UserService.collectErrors today user = []
  · cases hd : UserRepository.get_by_email s user.email with
    | some r =>
      rw [UserService.create_user_business_branch today s user hnil
        (by simp [hd])]
    | none =>
      rw [UserService.create_user_insert_branch today s user hnil hd] at h
      simp at h
  · rw [UserService.create_user_validation_branch today s user hnil]

theorem create_user_error_leaves_store_unchanged_witness :
    (UserService.create_user 0 Store.empty ⟨"", "bad", 1⟩).1 =
      Except.error (AppError.ValidationError
        [UserService.nameMsg, UserService.emailMsg, UserService.birthMsg]) ∧
    (UserService.create_user 0 Store.empty ⟨"", "bad", 1⟩).2 = Store.empty :=
  have h : (UserService.create_user 0 Store.empty ⟨"", "bad", 1⟩).1 =
      Except.error (AppError.ValidationError
        [UserService.nameMsg, UserService.emailMsg,
         UserService.birthMsg]) := by rfl
  ⟨h, create_user_error_leaves_store_unchanged 0 Store.empty
    ⟨"", "bad", 1⟩ _ h⟩

/-- C10: the name is trimmed only for the emptiness check; a valid,
non-duplicate request whose name carries leading or trailing whitespace
around non-whitespace text is persisted and returned with that whitespace
intact. -/
theorem create_user_keeps_name_whitespace (today : Int) (s : Store)
    (user : NewUser)
    (hw : strTrim user.name ≠ user.name)
    (h1 : strIsEmpty (strTrim user.name) = false)
    (h2 : strContains user.email '@' = true)
    (h3 : ¬ user.birth_date > today)
    (hd : UserRepository.get_by_email s user.email = none) :
    (UserService.create_user today s user).1 =
      Except.ok ⟨s.nextId, user.name, user.email, user.birth_date⟩ ∧
    (UserService.create_user today s user).2.users =
      s.users ++ [⟨s.nextId, user.name, user.email, user.birth_date⟩] := by
  have hnil : UserService.collectErrors today user = [] :=
    (UserService.collectErrors_eq_nil_iff today user).mpr ⟨h1, h2, h3⟩
  rw [UserService.create_user_insert_branch today s user hnil hd]
  exact ⟨rfl, rfl⟩

theorem create_user_keeps_name_whitespace_witness :
    (UserService.create_user 0 Store.empty ⟨" Ana ", "ana@x.com", 0⟩).1 =
      Except.ok (⟨1, " Ana ", "ana@x.com", 0⟩ : User) ∧
    (UserService.create_user 0 Store.empty
        ⟨" Ana ", "ana@x.com", 0⟩).2.users =
      [⟨1, " Ana ", "ana@x.com", 0⟩] :=
  create_user_keeps_name_whitespace 0 Store.empty
    ⟨" Ana ", "ana@x.com", 0⟩
    (by decide) (by decide) (by decide) (by decide) rfl
